import Mathlib

/-
Verification of the grid-world RL environment (Extra Files/RL_Agent/env.py).

The Python class GridWorldEnv is shallowly embedded: grid coordinates are ℤ,
rewards are exact rationals ℚ (the float literals 0.1, 0.2, 0.3, 1.0, 20.0 of
the source become 1/10, 1/5, 3/10, 1, 20), the continuous Bezier layer is
modelled over ℝ.  Only the grid-only mode is modelled (use_coppeliasim=False,
simulation_mode=True), in which every CoppeliaSim branch of the source is
skipped.
-/

namespace GridWorld

/-- Action constant UP = 0 (env.py line 12). -/
def UP : ℤ := 0

/-- Action constant DOWN = 1 (env.py line 13). -/
def DOWN : ℤ := 1

/-- Action constant LEFT = 2 (env.py line 14). -/
def LEFT : ℤ := 2

/-- Action constant RIGHT = 3 (env.py line 15). -/
def RIGHT : ℤ := 3

/-- Action constant STAY = 4 (env.py line 16). -/
def STAY : ℤ := 4

/-- ACTION_NAMES.get(action, "UNKNOWN") of env.py lines 19-25: the dict lookup
with default. -/
def ACTION_NAMES (a : ℤ) : String :=
  if a = UP then "UP"
  else if a = DOWN then "DOWN"
  else if a = LEFT then "LEFT"
  else if a = RIGHT then "RIGHT"
  else if a = STAY then "STAY"
  else "UNKNOWN"

/-- The mutable state of a GridWorldEnv instance in grid-only mode:
grid_dimensions = [W, H], max_steps, total_steps, agent position (x, y)
(current_location is kept equal to (x, y) by the source), init_loc,
redspots (the obstacle list) and goal. -/
structure Env where
  W : ℤ
  H : ℤ
  max_steps : ℕ
  total_steps : ℕ
  x : ℤ
  y : ℤ
  init_loc : ℤ × ℤ
  redspots : List (ℤ × ℤ)
  goal : ℤ × ℤ
deriving DecidableEq

/-- Manhattan distance `abs(x1-x2) + abs(y1-y2)` as computed inline by
step (env.py lines 481, 506). -/
def manhattanDist (p q : ℤ × ℤ) : ℤ := |p.1 - q.1| + |p.2 - q.2|

/-- The five vision offsets range(-2, 3) of env.py lines 406-407. -/
def visionOffsets : List ℤ := [-2, -1, 0, 1, 2]

/-- The cell label of env.py lines 411-416: 1.0 for an obstacle (red spot),
2.0 for the goal, 0.0 otherwise. -/
def cellColor (e : Env) (c : ℤ × ℤ) : ℚ :=
  if c ∈ e.redspots then 1 else if c = e.goal then 2 else 0

/-- get_observation (env.py lines 394-430): the 5x5 window centered on the
agent, dy outer loop and dx inner loop, each world coordinate clamped to the
grid bounds with max(0, min(dim-1, agent+offset)), followed by the four
floats agent_x, agent_y, goal_x, goal_y. -/
def get_observation (e : Env) : List ℚ :=
  (visionOffsets.flatMap fun dy => visionOffsets.map fun dx =>
    cellColor e (max 0 (min (e.W - 1) (e.x + dx)), max 0 (min (e.H - 1) (e.y + dy))))
  ++ [(e.x : ℚ), (e.y : ℚ), (e.goal.1 : ℚ), (e.goal.2 : ℚ)]

/-- The nine window offsets range(-4, 5) of env.py lines 442-443. -/
def offsets4 : List ℤ := [-4, -3, -2, -1, 0, 1, 2, 3, 4]

/-- The Manhattan distances abs(dx)+abs(dy) collected by the double loop of
calculate_obstacle_proximity (env.py lines 442-456): dx outer and dy inner
over range(-4, 5), out-of-bounds window cells skipped, distances recorded
only for window cells that are obstacles. -/
def proximity_candidates (e : Env) : List ℕ :=
  offsets4.flatMap fun dx => offsets4.filterMap fun dy =>
    let xp := e.x + dx
    let yp := e.y + dy
    if xp < 0 ∨ e.W ≤ xp ∨ yp < 0 ∨ e.H ≤ yp then none
    else if (xp, yp) ∈ e.redspots then some (dx.natAbs + dy.natAbs)
    else none

/-- The running minimum `min_distance = min(min_distance, distance)` started
from float(inf) in env.py lines 439 and 456, as the minimum of the collected
distances, none standing for inf. -/
def minDist : List ℕ → Option ℕ
  | [] => none
  | d :: rest =>
    match minDist rest with
    | none => some d
    | some m => some (min d m)

/-- calculate_obstacle_proximity (env.py lines 432-465): 0.0 when no obstacle
was found in the search window, otherwise max(0.0, 1.0 - min_distance * 0.2). -/
def calculate_obstacle_proximity (e : Env) : ℚ :=
  match minDist (proximity_candidates e) with
  | none => 0
  | some d => max 0 (1 - (d : ℚ) * (1 / 5))

/-- The position update of step (env.py lines 489-501): the if/elif chain on
the action, UP and DOWN clamp y with max/min, LEFT and RIGHT clamp x, and any
other action (STAY included) leaves the position unchanged. -/
def applyAction (e : Env) (action : ℤ) : ℤ × ℤ :=
  if action = UP then (e.x, max 0 (e.y - 1))
  else if action = DOWN then (e.x, min (e.H - 1) (e.y + 1))
  else if action = LEFT then (max 0 (e.x - 1), e.y)
  else if action = RIGHT then (min (e.W - 1) (e.x + 1), e.y)
  else (e.x, e.y)

/-- The (observation, reward, done, info) tuple returned by step
(env.py line 617), the info dict fields spelled out. -/
structure StepResult where
  obs : List ℚ
  reward : ℚ
  done : Bool
  manhattan_distance : ℤ
  action_name : String
  manhattan_improvement : ℤ
  obstacle_proximity : ℚ
deriving DecidableEq

/-- step (env.py lines 467-617) in grid-only mode, the CoppeliaSim block of
lines 509-563 skipped: increment total_steps, move via the action chain,
recompute the Manhattan distance, compute obstacle proximity at the new
position, then the priority-ordered reward: +1.0 and done on the goal,
-20.0 and done on an obstacle, else the shaping sum of the distance term
(0.1 / -0.1 / -0.05), the proximity penalty -proximity*0.3 and the -0.2 wall
penalty whose condition tests the post-move coordinate against the boundary;
finally done is forced true once total_steps >= max_steps. -/
def step (e : Env) (action : ℤ) : StepResult × Env :=
  let total_steps := e.total_steps + 1
  let old_position := (e.x, e.y)
  let old_manhattan := manhattanDist old_position e.goal
  let np := applyAction e action
  let e1 : Env := { e with x := np.1, y := np.2, total_steps := total_steps }
  let new_manhattan := manhattanDist np e.goal
  let obstacle_proximity := calculate_obstacle_proximity e1
  let rd : ℚ × Bool :=
    if np = e.goal then (1, true)
    else if np ∈ e.redspots then (-20, true)
    else
      let base : ℚ :=
        if new_manhattan < old_manhattan then 1 / 10
        else if new_manhattan > old_manhattan then -(1 / 10)
        else -(1 / 20)
      let r := base + -obstacle_proximity * (3 / 10)
      let r :=
        if (action = UP ∧ np.2 = 0) ∨ (action = DOWN ∧ np.2 = e.H - 1) ∨
            (action = LEFT ∧ np.1 = 0) ∨ (action = RIGHT ∧ np.1 = e.W - 1)
        then r - 1 / 5 else r
      (r, false)
  let done := if e.max_steps ≤ total_steps then true else rd.2
  ({ obs := get_observation e1
     reward := rd.1
     done := done
     manhattan_distance := new_manhattan
     action_name := ACTION_NAMES action
     manhattan_improvement := old_manhattan - new_manhattan
     obstacle_proximity := obstacle_proximity }, e1)

/-- reset (env.py lines 629-709) in grid-only mode: restore x, y and
current_location from init_loc, zero total_steps (the CoppeliaSim block of
lines 642-695 is skipped and the goal is already a valid pair), and return
the observation of the restored state. -/
def reset (e : Env) : List ℚ × Env :=
  let e1 : Env := { e with x := e.init_loc.1, y := e.init_loc.2, total_steps := 0 }
  (get_observation e1, e1)

/-- Python round(), round-half-to-even, on an exact rational. -/
def pyRound (q : ℚ) : ℤ :=
  let f := ⌊q⌋
  if q - f < 1 / 2 then f
  else if 1 / 2 < q - f then f + 1
  else if 2 ∣ f then f else f + 1

/-- move_to_grid (env.py lines 256-270): shift by +2.5, reject outside
[0, 5] on either axis, round the result of dividing by the 0.125 pitch,
reject a cell outside [0, 40], else return the cell.  None is modelled
as Option.none. -/
def move_to_grid (cx cy : ℚ) : Option (ℤ × ℤ) :=
  let x := cx + 5 / 2
  let y := cy + 5 / 2
  if 5 < x ∨ x < 0 ∨ 5 < y ∨ y < 0 then none
  else
    let x_grid := pyRound (x / (1 / 8))
    let y_grid := pyRound (y / (1 / 8))
    if 40 < x_grid ∨ x_grid < 0 ∨ 40 < y_grid ∨ y_grid < 0 then none
    else some (x_grid, y_grid)

/-- grid_to_coordinates (env.py lines 272-283): reject a cell outside
[0, 40], else scale by the 0.125 pitch, shift by -2.5 and return the
continuous point with fixed z = 0.05. -/
def grid_to_coordinates (x_grid y_grid : ℤ) : Option (ℚ × ℚ × ℚ) :=
  if 40 < x_grid ∨ x_grid < 0 ∨ 40 < y_grid ∨ y_grid < 0 then none
  else some ((x_grid : ℚ) * (1 / 8) - 5 / 2, (y_grid : ℚ) * (1 / 8) - 5 / 2, 1 / 20)

/-- bezier_recursive (env.py lines 285-302) over ℝ, the float arithmetic made
exact.  The flattened 7-float control points of the source are modelled as a
list of 3d positions, matching the slice ctrlPts[i*7 : i*7+3]: the weighted
sum of the positions with Bernstein weights comb(n,i)*(1-t)^(n-i)*t^i, the
point divided by the accumulated total weight when that is positive, and the
z coordinate overwritten with the fixed initial height. -/
noncomputable def bezier_recursive (initial_z : ℝ) (pts : List (ℝ × ℝ × ℝ)) (t : ℝ) :
    ℝ × ℝ × ℝ :=
  let n := pts.length - 1
  let weight : ℕ → ℝ := fun i => (n.choose i : ℝ) * (1 - t) ^ (n - i) * t ^ i
  let total_weight : ℝ := ∑ i ∈ Finset.range (n + 1), weight i
  let px : ℝ := ∑ i ∈ Finset.range (n + 1), weight i * (pts.getD i (0, 0, 0)).1
  let py : ℝ := ∑ i ∈ Finset.range (n + 1), weight i * (pts.getD i (0, 0, 0)).2.1
  if 0 < total_weight then (px / total_weight, py / total_weight, initial_z)
  else (px, py, initial_z)

/-- The Euclidean distance np.linalg.norm(curr_point - prev_point) between
two 3d points (env.py line 312). -/
noncomputable def dist3 (p q : ℝ × ℝ × ℝ) : ℝ :=
  Real.sqrt ((p.1 - q.1) ^ 2 + (p.2.1 - q.2.1) ^ 2 + (p.2.2 - q.2.2) ^ 2)

/-- calculate_total_length (env.py lines 304-314): the sum over
i = 1..subdivisions of the distance between the curve points at t = i/N and
t = (i-1)/N, written as a sum over Finset.range subdivisions. -/
noncomputable def calculate_total_length (initial_z : ℝ) (pts : List (ℝ × ℝ × ℝ))
    (subdivisions : ℕ) : ℝ :=
  ∑ i ∈ Finset.range subdivisions,
    dist3 (bezier_recursive initial_z pts (((i : ℝ) + 1) / (subdivisions : ℝ)))
      (bezier_recursive initial_z pts ((i : ℝ) / (subdivisions : ℝ)))

/-- The two control points (0,0,0) and (1,0,0) of the unit segment scenario. -/
noncomputable def segPts : List (ℝ × ℝ × ℝ) := [(0, 0, 0), (1, 0, 0)]

/-- A layout produced by grid-mode world generation: redspots, goal and
agent start (init_loc). -/
structure Layout where
  redspots : List (ℤ × ℤ)
  goal : ℤ × ℤ
  agentStart : ℤ × ℤ
deriving DecidableEq

/-- One draw of random.randint(0, dim-1) for each axis, the random source
modelled as a stream of naturals reduced into range by mod: the sample at
stream position k is (stream k mod W, stream (k+1) mod H) as a cell. -/
def sampleCell (W H : ℤ) (stream : ℕ → ℕ) (k : ℕ) : ℤ × ℤ :=
  ((stream k % W.toNat : ℕ), (stream (k + 1) % H.toNat : ℕ))

/-- The obstacle loop of initialize_grid_environment (env.py lines 162-166):
while the list is shorter than num_obstacles, sample a cell and append it
unless it is a duplicate.  The non-terminating rejection loop is given
explicit fuel; exhausted fuel returns none.  On success the list and the
next stream position are returned. -/
def genObstacles (W H : ℤ) (stream : ℕ → ℕ) :
    ℕ → ℕ → ℕ → List (ℤ × ℤ) → Option (List (ℤ × ℤ) × ℕ)
  | 0, _, _, _ => none
  | fuel + 1, k, need, acc =>
    if need ≤ acc.length then some (acc, k)
    else
      let c := sampleCell W H stream k
      if c ∈ acc then genObstacles W H stream fuel (k + 2) need acc
      else genObstacles W H stream fuel (k + 2) need (acc ++ [c])

/-- The goal loop of initialize_grid_environment (env.py lines 169-174):
sample until the cell is not an obstacle. -/
def genGoal (W H : ℤ) (stream : ℕ → ℕ) :
    ℕ → ℕ → List (ℤ × ℤ) → Option ((ℤ × ℤ) × ℕ)
  | 0, _, _ => none
  | fuel + 1, k, obstacles =>
    let c := sampleCell W H stream k
    if c ∉ obstacles then some (c, k + 2)
    else genGoal W H stream fuel (k + 2) obstacles

/-- The agent loop of initialize_grid_environment (env.py lines 177-185):
sample until the cell is neither an obstacle nor the goal. -/
def genAgent (W H : ℤ) (stream : ℕ → ℕ) :
    ℕ → ℕ → List (ℤ × ℤ) → (ℤ × ℤ) → Option ((ℤ × ℤ) × ℕ)
  | 0, _, _, _ => none
  | fuel + 1, k, obstacles, goal =>
    let c := sampleCell W H stream k
    if c ∉ obstacles ∧ c ≠ goal then some (c, k + 2)
    else genAgent W H stream fuel (k + 2) obstacles goal

/-- initialize_grid_environment (env.py lines 155-185): draw
num_obstacles = randint(20, 50) — modelled as 20 + stream 0 mod 31 — then
run the three rejection loops in order over the shared stream. -/
def initialize_grid_environment (W H : ℤ) (stream : ℕ → ℕ) (fuel : ℕ) :
    Option Layout :=
  let num_obstacles := 20 + stream 0 % 31
  (genObstacles W H stream fuel 1 num_obstacles []).bind fun ok =>
    (genGoal W H stream fuel ok.2 ok.1).bind fun gk =>
      (genAgent W H stream fuel gk.2 ok.1 gk.1).map fun ak =>
        ⟨ok.1, gk.1, ak.1⟩

/-- Boolean in-bounds test for a cell against [0,W) x [0,H). -/
def cellInBounds (W H : ℤ) (p : ℤ × ℤ) : Bool :=
  decide (0 ≤ p.1) && decide (p.1 < W) && decide (0 ≤ p.2) && decide (p.2 < H)

/-- Boolean in-bounds test for a whole layout. -/
def layoutInBounds (W H : ℤ) (L : Layout) : Bool :=
  L.redspots.all (cellInBounds W H) && cellInBounds W H L.goal &&
    cellInBounds W H L.agentStart

/-- Boolean test that every obstacle of an environment lies in bounds. -/
def obstaclesInBounds (e : Env) : Bool :=
  e.redspots.all (cellInBounds e.W e.H)

/-- Manhattan distance of two cells as a natural number, |dx| + |dy|. -/
def mdist (p q : ℤ × ℤ) : ℕ := (p.1 - q.1).natAbs + (p.2 - q.2).natAbs

/-- Boolean test that d is the Manhattan distance from the agent of e to the
nearest obstacle: attained by some obstacle and a lower bound for all. -/
def isNearestB (e : Env) (d : ℕ) : Bool :=
  e.redspots.any (fun p => decide (mdist (e.x, e.y) p = d)) &&
    e.redspots.all (fun p => decide (d ≤ mdist (e.x, e.y) p))

/-- Concrete 5x5 environment one step above its goal; UP reaches the goal. -/
def envGoalStep : Env :=
  { W := 5, H := 5, max_steps := 100, total_steps := 0, x := 2, y := 2,
    init_loc := (2, 2), redspots := [(4, 4)], goal := (2, 1) }

/-- Concrete 40x40 environment at (0, 1): UP moves onto the boundary edge
without being blocked. -/
def envEdgeUp : Env :=
  { W := 40, H := 40, max_steps := 100, total_steps := 0, x := 0, y := 1,
    init_loc := (0, 1), redspots := [], goal := (5, 5) }

/-- Concrete 5x5 environment in the corner (0, 0), for the blocked LEFT
scenario. -/
def envCorner : Env :=
  { W := 5, H := 5, max_steps := 100, total_steps := 0, x := 0, y := 0,
    init_loc := (0, 0), redspots := [(1, 1)], goal := (4, 4) }

/-- Concrete obstacle-free 5x5 environment away from walls and goal. -/
def envCenter : Env :=
  { W := 5, H := 5, max_steps := 100, total_steps := 0, x := 1, y := 1,
    init_loc := (1, 1), redspots := [], goal := (3, 3) }

/-- Concrete environment whose first step already exhausts max_steps = 1. -/
def envTimeout : Env :=
  { W := 5, H := 5, max_steps := 1, total_steps := 0, x := 1, y := 1,
    init_loc := (1, 1), redspots := [], goal := (3, 3) }

/-- Concrete 10x10 environment whose nearest obstacle is at Manhattan
distance 1. -/
def envNearObstacle : Env :=
  { W := 10, H := 10, max_steps := 100, total_steps := 0, x := 5, y := 5,
    init_loc := (5, 5), redspots := [(5, 6)], goal := (9, 9) }

/-- A concrete random stream for running the world generator. -/
def demoStream : ℕ → ℕ := fun k => k / 2

/-- The layout the generator produces from demoStream on a 40x40 grid. -/
def demoLayout : Layout :=
  { redspots := [(0, 1), (1, 2), (2, 3), (3, 4), (4, 5), (5, 6), (6, 7), (7, 8),
      (8, 9), (9, 10), (10, 11), (11, 12), (12, 13), (13, 14), (14, 15),
      (15, 16), (16, 17), (17, 18), (18, 19), (19, 20)],
    goal := (20, 21), agentStart := (21, 22) }

lemma mem_offsets4 {z : ℤ} : z ∈ offsets4 ↔ -4 ≤ z ∧ z ≤ 4 := by
  simp only [offsets4, List.mem_cons, List.mem_singleton, List.not_mem_nil, or_false]
  omega

lemma minDist_ne_none {d : ℕ} {l : List ℕ} : minDist (d :: l) ≠ none := by
  cases h : minDist l <;> simp [minDist, h]

lemma minDist_mem : ∀ {l : List ℕ} {m : ℕ}, minDist l = some m → m ∈ l := by
  intro l
  induction l with
  | nil => intro m h; simp [minDist] at h
  | cons d rest ih =>
    intro m h
    cases hr : minDist rest with
    | none => simp [minDist, hr] at h; simp [h]
    | some m0 =>
      simp [minDist, hr] at h
      rcases Nat.le_total d m0 with hle | hle
      · have hmd : m = d := by omega
        rw [hmd]
        exact List.mem_cons_self d rest
      · have hmd : m = m0 := by omega
        rw [hmd]
        exact List.mem_cons_of_mem d (ih hr)

lemma minDist_le : ∀ {l : List ℕ} {m : ℕ}, minDist l = some m → ∀ a ∈ l, m ≤ a := by
  intro l
  induction l with
  | nil => intro m _ a ha; simp at ha
  | cons d rest ih =>
    intro m h a ha
    cases hr : minDist rest with
    | none =>
      cases rest with
      | cons x xs => exact absurd hr minDist_ne_none
      | nil =>
        simp [minDist] at h
        simp at ha
        omega
    | some m0 =>
      simp [minDist, hr] at h
      rcases List.mem_cons.mp ha with rfl | ha2
      · omega
      · have := ih hr a ha2; omega

lemma mem_proximity_candidates {e : Env} {d : ℕ} :
    d ∈ proximity_candidates e ↔
      ∃ p, p ∈ e.redspots ∧ 0 ≤ p.1 ∧ p.1 < e.W ∧ 0 ≤ p.2 ∧ p.2 < e.H ∧
        (p.1 - e.x).natAbs ≤ 4 ∧ (p.2 - e.y).natAbs ≤ 4 ∧ mdist (e.x, e.y) p = d := by
  simp only [proximity_candidates, List.mem_flatMap, List.mem_filterMap]
  constructor
  · rintro ⟨dx, hdx, dy, hdy, h⟩
    rw [mem_offsets4] at hdx hdy
    by_cases hb : e.x + dx < 0 ∨ e.W ≤ e.x + dx ∨ e.y + dy < 0 ∨ e.H ≤ e.y + dy
    · simp only [hb, if_true] at h; exact absurd h (by simp)
    · simp only [hb, if_false] at h
      by_cases hm : (e.x + dx, e.y + dy) ∈ e.redspots
      · simp only [hm, if_true, Option.some.injEq] at h
        refine ⟨(e.x + dx, e.y + dy), hm, ?_, ?_, ?_, ?_, ?_, ?_, ?_⟩ <;>
          simp only [mdist] <;> omega
      · simp [hm] at h
  · rintro ⟨p, hp, h1, h2, h3, h4, h5, h6, h7⟩
    refine ⟨p.1 - e.x, mem_offsets4.mpr (by omega), p.2 - e.y,
      mem_offsets4.mpr (by omega), ?_⟩
    have hx : e.x + (p.1 - e.x) = p.1 := by ring
    have hy : e.y + (p.2 - e.y) = p.2 := by ring
    rw [hx, hy]
    have hb : ¬(p.1 < 0 ∨ e.W ≤ p.1 ∨ p.2 < 0 ∨ e.H ≤ p.2) := by omega
    rw [if_neg hb, if_pos (by rwa [Prod.mk.eta])]
    simp only [mdist] at h7
    congr 1
    omega

lemma candidate_attained {e : Env} {d : ℕ} (h : d ∈ proximity_candidates e) :
    d ≤ 8 ∧ ∃ p ∈ e.redspots, mdist (e.x, e.y) p = d := by
  obtain ⟨p, hp, _, _, _, _, h5, h6, h7⟩ := mem_proximity_candidates.mp h
  refine ⟨?_, p, hp, h7⟩
  simp only [mdist] at h7
  omega

lemma prox_nonneg (e : Env) : 0 ≤ calculate_obstacle_proximity e := by
  unfold calculate_obstacle_proximity
  cases minDist (proximity_candidates e) <;> simp

lemma prox_le_one (e : Env) : calculate_obstacle_proximity e ≤ 1 := by
  unfold calculate_obstacle_proximity
  cases h : minDist (proximity_candidates e) with
  | none => norm_num
  | some d =>
    refine max_le (by norm_num) ?_
    have : (0 : ℚ) ≤ (d : ℚ) * (1 / 5) := by positivity
    linarith

lemma obstaclesInBounds_spec {e : Env} (hb : obstaclesInBounds e = true) :
    ∀ p ∈ e.redspots, 0 ≤ p.1 ∧ p.1 < e.W ∧ 0 ≤ p.2 ∧ p.2 < e.H := by
  intro p hp
  rw [obstaclesInBounds, List.all_eq_true] at hb
  have h := hb p hp
  simp only [cellInBounds, Bool.and_eq_true, decide_eq_true_eq] at h
  tauto

lemma isNearestB_spec {e : Env} {d : ℕ} (h : isNearestB e d = true) :
    (∃ p ∈ e.redspots, mdist (e.x, e.y) p = d) ∧
      ∀ p ∈ e.redspots, d ≤ mdist (e.x, e.y) p := by
  rw [isNearestB, Bool.and_eq_true, List.any_eq_true, List.all_eq_true] at h
  obtain ⟨⟨p0, hp0, hd0⟩, hall⟩ := h
  exact ⟨⟨p0, hp0, by simpa using hd0⟩, fun p hp => by simpa using hall p hp⟩

/-- C4: calculate_obstacle_proximity equals max(0, 1 - 0.2*d) where d is the
Manhattan distance to the nearest obstacle capped by the 8-cell search
radius — in particular it is 0.0 when no obstacle lies within Manhattan
distance 8 (the cap makes the value 0 for every d at least 5) and 0.8 when
the nearest obstacle is at distance 1 — and the result always lies in [0, 1].
Stated for the in-bounds obstacle sets reachable in grid mode. -/
theorem c4_obstacle_proximity (e : Env) (d : ℕ)
    (hb : obstaclesInBounds e = true) (hnear : isNearestB e d = true) :
    calculate_obstacle_proximity e = max 0 (1 - ((min d 8 : ℕ) : ℚ) * (1 / 5)) ∧
    0 ≤ calculate_obstacle_proximity e ∧ calculate_obstacle_proximity e ≤ 1 := by
  refine ⟨?_, prox_nonneg e, prox_le_one e⟩
  obtain ⟨⟨p0, hp0, hd0⟩, hall⟩ := isNearestB_spec hnear
  have hbs := obstaclesInBounds_spec hb
  by_cases hd : d ≤ 4
  · have hcd : d ∈ proximity_candidates e := by
      apply mem_proximity_candidates.mpr
      obtain ⟨b1, b2, b3, b4⟩ := hbs p0 hp0
      refine ⟨p0, hp0, b1, b2, b3, b4, ?_, ?_, hd0⟩ <;>
        · simp only [mdist] at hd0
          omega
    cases hm : minDist (proximity_candidates e) with
    | none =>
      cases hc : proximity_candidates e with
      | nil => rw [hc] at hcd; simp at hcd
      | cons a as => rw [hc] at hm; exact absurd hm minDist_ne_none
    | some m =>
      obtain ⟨_, q, hq, hqd⟩ := candidate_attained (minDist_mem hm)
      have h1 : d ≤ m := hqd ▸ hall q hq
      have h2 : m ≤ d := minDist_le hm d hcd
      have hmd : m = d := le_antisymm h2 h1
      subst hmd
      simp only [calculate_obstacle_proximity, hm]
      rw [Nat.min_eq_left (by omega)]
  · have hrhs : (5 : ℚ) ≤ ((min d 8 : ℕ) : ℚ) := by
      exact_mod_cast (by omega : 5 ≤ min d 8)
    have hz : max 0 (1 - ((min d 8 : ℕ) : ℚ) * (1 / 5)) = 0 := by
      rw [max_eq_left]
      linarith
    rw [hz]
    cases hm : minDist (proximity_candidates e) with
    | none => simp only [calculate_obstacle_proximity, hm]
    | some m =>
      obtain ⟨_, q, hq, hqd⟩ := candidate_attained (minDist_mem hm)
      have hdm : d ≤ m := hqd ▸ hall q hq
      have hm5 : (5 : ℚ) ≤ (m : ℚ) := by exact_mod_cast (by omega : 5 ≤ m)
      simp only [calculate_obstacle_proximity, hm]
      rw [max_eq_left]
      linarith

lemma step_goal_case {e : Env} {a : ℤ} (h1 : applyAction e a = e.goal) :
    (step e a).1.reward = 1 ∧ (step e a).1.done = true := by
  simp only [step]
  rw [if_pos h1]
  exact ⟨rfl, by split <;> rfl⟩

lemma step_obstacle_case {e : Env} {a : ℤ} (h1 : applyAction e a ≠ e.goal)
    (h2 : applyAction e a ∈ e.redspots) :
    (step e a).1.reward = -20 ∧ (step e a).1.done = true := by
  simp only [step]
  rw [if_neg h1, if_pos h2]
  exact ⟨rfl, by split <;> rfl⟩

lemma shaping_reward_bounds {e : Env} {a : ℤ}
    (h1 : applyAction e a ≠ e.goal) (h2 : applyAction e a ∉ e.redspots) :
    -(3 / 5 : ℚ) ≤ (step e a).1.reward ∧ (step e a).1.reward ≤ 1 / 10 := by
  have hp0 := prox_nonneg (step e a).2
  have hp1 := prox_le_one (step e a).2
  simp only [step] at hp0 hp1 ⊢
  rw [if_neg h1, if_neg h2]
  constructor <;> split_ifs <;> linarith

/-- C1: in grid mode the step reward is exactly +1.0 with done = true iff the
post-move position equals the goal, and exactly -20.0 with done = true iff
the post-move position is an obstacle cell; the goal rule has priority and,
goal not being an obstacle, the two terminal cases exclude each other. -/
theorem c1_terminal_rewards (e : Env) (a : ℤ) (hg : e.goal ∉ e.redspots) :
    (((step e a).1.reward = 1 ∧ (step e a).1.done = true) ↔
      applyAction e a = e.goal) ∧
    (((step e a).1.reward = -20 ∧ (step e a).1.done = true) ↔
      applyAction e a ∈ e.redspots) := by
  by_cases h1 : applyAction e a = e.goal
  · have hv := step_goal_case h1
    refine ⟨⟨fun _ => h1, fun _ => hv⟩, ?_, ?_⟩
    · rintro ⟨hr, -⟩
      exfalso
      rw [hv.1] at hr
      norm_num at hr
    · intro hmem
      exact absurd (h1 ▸ hmem) hg
  · by_cases h2 : applyAction e a ∈ e.redspots
    · have hv := step_obstacle_case h1 h2
      refine ⟨⟨?_, fun hgoal => absurd hgoal h1⟩, fun _ => h2, fun _ => hv⟩
      rintro ⟨hr, -⟩
      exfalso
      rw [hv.1] at hr
      norm_num at hr
    · have hb := shaping_reward_bounds h1 h2
      refine ⟨⟨?_, fun hgoal => absurd hgoal h1⟩, ?_, fun hmem => absurd hmem h2⟩
      · rintro ⟨hr, -⟩
        rw [hr] at hb
        exfalso
        linarith [hb.2]
      · rintro ⟨hr, -⟩
        rw [hr] at hb
        exfalso
        linarith [hb.1]

/-- Witness for C1 at a concrete environment where UP reaches the goal. -/
theorem c1_terminal_rewards_witness :
    envGoalStep.goal ∉ envGoalStep.redspots ∧
    ((((step envGoalStep UP).1.reward = 1 ∧ (step envGoalStep UP).1.done = true) ↔
        applyAction envGoalStep UP = envGoalStep.goal) ∧
      (((step envGoalStep UP).1.reward = -20 ∧ (step envGoalStep UP).1.done = true) ↔
        applyAction envGoalStep UP ∈ envGoalStep.redspots)) :=
  ⟨by decide, c1_terminal_rewards envGoalStep UP (by decide)⟩

/-- C5: whenever the post-step counter has reached max_steps, the returned
done flag is true, regardless of which reward rule matched. -/
theorem c5_timeout_forces_done (e : Env) (a : ℤ)
    (h : e.max_steps ≤ (step e a).2.total_steps) : (step e a).1.done = true := by
  have h2 : e.max_steps ≤ e.total_steps + 1 := by simpa [step] using h
  simp only [step]
  rw [if_pos h2]

/-- Witness for C5: a shaping (non-terminal-reward) step that exhausts
max_steps = 1 returns done = true. -/
theorem c5_timeout_forces_done_witness :
    envTimeout.max_steps ≤ (step envTimeout STAY).2.total_steps ∧
    (step envTimeout STAY).1.done = true :=
  ⟨by decide, c5_timeout_forces_done envTimeout STAY (by decide)⟩

/-- C9: in grid-only mode two consecutive resets return identical
observations and identical states with stepCount = 0, and every reset
restores the position to the agent start fixed at generation. -/
theorem c9_reset_idempotent (e : Env) :
    (reset ((reset e).2)).1 = (reset e).1 ∧
    (reset e).2.total_steps = 0 ∧ (reset ((reset e).2)).2.total_steps = 0 ∧
    (reset e).2.x = e.init_loc.1 ∧ (reset e).2.y = e.init_loc.2 ∧
    (reset ((reset e).2)).2 = (reset e).2 :=
  ⟨rfl, rfl, rfl, rfl, rfl, rfl⟩

/-- C2 counterexample: at envEdgeUp the agent moves from (0, 1) to (0, 0) —
the move is not blocked, the position changes — with no obstacle nearby and
the Manhattan distance to the goal strictly increasing, so the claim
predicts reward -0.1; the code returns -0.3, charging the -0.2 wall penalty
for a move that was not clamped. -/
theorem c2_wall_penalty_counterexample :
    applyAction envEdgeUp UP ≠ (envEdgeUp.x, envEdgeUp.y) ∧
    applyAction envEdgeUp UP ≠ envEdgeUp.goal ∧
    applyAction envEdgeUp UP ∉ envEdgeUp.redspots ∧
    (step envEdgeUp UP).1.obstacle_proximity = 0 ∧
    manhattanDist (envEdgeUp.x, envEdgeUp.y) envEdgeUp.goal <
      manhattanDist (applyAction envEdgeUp UP) envEdgeUp.goal ∧
    (step envEdgeUp UP).1.reward = -(3 / 10) ∧
    (step envEdgeUp UP).1.reward ≠ -(1 / 10) := by
  have hp : calculate_obstacle_proximity
      { W := 40, H := 40, max_steps := 100, total_steps := 1, x := 0, y := 0,
        init_loc := (0, 1), redspots := [], goal := (5, 5) } = 0 := by decide
  have hr : (step envEdgeUp UP).1.reward = -(3 / 10) := by
    simp +decide [step, applyAction, envEdgeUp, UP, manhattanDist, hp]
    norm_num
  refine ⟨by decide, by decide, by decide, by decide, by decide, hr, ?_⟩
  rw [hr]
  norm_num

/-- C2 (amended): on every non-terminal step the reward is exactly the
Manhattan shaping term (+0.1 decreased / -0.1 increased / -0.05 unchanged)
minus 0.3 times the obstacle proximity, minus a 0.2 wall penalty that is
included iff the post-move coordinate lies on the boundary in the direction
of the action — which covers both moves blocked by the boundary (the (0,0)
LEFT scenario included) and unblocked moves onto the boundary edge. -/
theorem c2_shaping_reward (e : Env) (a : ℤ)
    (h1 : applyAction e a ≠ e.goal) (h2 : applyAction e a ∉ e.redspots) :
    (step e a).1.reward =
      (if manhattanDist (applyAction e a) e.goal <
          manhattanDist (e.x, e.y) e.goal then 1 / 10
        else if manhattanDist (e.x, e.y) e.goal <
          manhattanDist (applyAction e a) e.goal then -(1 / 10)
        else -(1 / 20))
      - (step e a).1.obstacle_proximity * (3 / 10)
      - (if (a = UP ∧ (applyAction e a).2 = 0) ∨
            (a = DOWN ∧ (applyAction e a).2 = e.H - 1) ∨
            (a = LEFT ∧ (applyAction e a).1 = 0) ∨
            (a = RIGHT ∧ (applyAction e a).1 = e.W - 1)
         then 1 / 5 else 0) := by
  simp only [step, gt_iff_lt]
  rw [if_neg h1, if_neg h2]
  split_ifs <;> ring

/-- Witness for C2 (amended) at the corner scenario: the agent at (0, 0)
takes LEFT, stays at (0, 0), and the wall penalty is part of the reward. -/
theorem c2_shaping_reward_witness :
    (applyAction envCorner LEFT ≠ envCorner.goal ∧
      applyAction envCorner LEFT ∉ envCorner.redspots) ∧
    (step envCorner LEFT).1.reward =
      (if manhattanDist (applyAction envCorner LEFT) envCorner.goal <
          manhattanDist (envCorner.x, envCorner.y) envCorner.goal then 1 / 10
        else if manhattanDist (envCorner.x, envCorner.y) envCorner.goal <
          manhattanDist (applyAction envCorner LEFT) envCorner.goal then -(1 / 10)
        else -(1 / 20))
      - (step envCorner LEFT).1.obstacle_proximity * (3 / 10)
      - (if (LEFT = UP ∧ (applyAction envCorner LEFT).2 = 0) ∨
            (LEFT = DOWN ∧ (applyAction envCorner LEFT).2 = envCorner.H - 1) ∨
            (LEFT = LEFT ∧ (applyAction envCorner LEFT).1 = 0) ∨
            (LEFT = RIGHT ∧ (applyAction envCorner LEFT).1 = envCorner.W - 1)
         then 1 / 5 else 0) :=
  ⟨⟨by decide, by decide⟩, c2_shaping_reward envCorner LEFT (by decide) (by decide)⟩

/-- C3 counterexample: step applied to the out-of-range action 7 does not
fail: it returns a normal non-terminal tuple — done = false, the STAY
shaping reward -0.05, position unchanged, info action_name UNKNOWN. -/
theorem c3_invalid_action_counterexample :
    (step envCenter 7).1.done = false ∧
    (step envCenter 7).1.reward = -(1 / 20) ∧
    (step envCenter 7).2.x = envCenter.x ∧
    (step envCenter 7).2.y = envCenter.y ∧
    (step envCenter 7).1.action_name = "UNKNOWN" := by
  have hp : calculate_obstacle_proximity
      { W := 5, H := 5, max_steps := 100, total_steps := 1, x := 1, y := 1,
        init_loc := (1, 1), redspots := [], goal := (3, 3) } = 0 := by decide
  have hr : (step envCenter 7).1.reward = -(1 / 20) := by
    simp +decide [step, applyAction, envCenter, UP, DOWN, LEFT, RIGHT,
      manhattanDist, hp]
  exact ⟨by decide, hr, by decide, by decide, by decide⟩

/-- C3 (amended): an action outside the 0..4 enumeration is handled
silently, not loudly: the position update is a no-op and step returns a
normal tuple agreeing with STAY in every component, except that the info
action_name is the dict-lookup default UNKNOWN. -/
theorem c3_invalid_action_silent (e : Env) (a : ℤ)
    (h0 : a ≠ UP) (h1 : a ≠ DOWN) (h2 : a ≠ LEFT) (h3 : a ≠ RIGHT)
    (h4 : a ≠ STAY) :
    applyAction e a = (e.x, e.y) ∧
    (step e a).1.obs = (step e STAY).1.obs ∧
    (step e a).1.reward = (step e STAY).1.reward ∧
    (step e a).1.done = (step e STAY).1.done ∧
    (step e a).2 = (step e STAY).2 ∧
    (step e a).1.action_name = "UNKNOWN" := by
  have ha : applyAction e a = (e.x, e.y) := by
    simp [applyAction, h0, h1, h2, h3]
  have hstay : applyAction e STAY = (e.x, e.y) := rfl
  refine ⟨ha, ?_, ?_, ?_, ?_, ?_⟩
  · simp only [step]
    rw [ha, hstay]
  · simp only [step]
    rw [ha, hstay]
    simp +decide [h0, h1, h2, h3]
  · simp only [step]
    rw [ha, hstay]
    simp +decide [h0, h1, h2, h3]
  · simp only [step]
    rw [ha, hstay]
  · simp [step, ACTION_NAMES, h0, h1, h2, h3, h4]

/-- Witness for C3 (amended) at the concrete invalid action 7. -/
theorem c3_invalid_action_silent_witness :
    ((7 : ℤ) ≠ UP ∧ (7 : ℤ) ≠ DOWN ∧ (7 : ℤ) ≠ LEFT ∧ (7 : ℤ) ≠ RIGHT ∧
      (7 : ℤ) ≠ STAY) ∧
    (applyAction envCenter 7 = (envCenter.x, envCenter.y) ∧
      (step envCenter 7).1.obs = (step envCenter STAY).1.obs ∧
      (step envCenter 7).1.reward = (step envCenter STAY).1.reward ∧
      (step envCenter 7).1.done = (step envCenter STAY).1.done ∧
      (step envCenter 7).2 = (step envCenter STAY).2 ∧
      (step envCenter 7).1.action_name = "UNKNOWN") :=
  ⟨by decide, c3_invalid_action_silent envCenter 7 (by decide) (by decide)
    (by decide) (by decide) (by decide)⟩

/-- Witness for C4 at a concrete environment whose nearest obstacle is at
Manhattan distance 1, so the proximity evaluates to 0.8. -/
theorem c4_obstacle_proximity_witness :
    (obstaclesInBounds envNearObstacle = true ∧
      isNearestB envNearObstacle 1 = true) ∧
    (calculate_obstacle_proximity envNearObstacle =
        max 0 (1 - ((min 1 8 : ℕ) : ℚ) * (1 / 5)) ∧
      0 ≤ calculate_obstacle_proximity envNearObstacle ∧
      calculate_obstacle_proximity envNearObstacle ≤ 1) :=
  ⟨⟨by decide, by decide⟩,
    c4_obstacle_proximity envNearObstacle 1 (by decide) (by decide)⟩

/-- C6: the observation vector always has length (2*2+1)^2 + 4 = 29; its
window entry at row-major index (dy+2)*5 + (dx+2) is the label of the world
cell clamped to the grid bounds — 1.0 for an obstacle, 2.0 for the goal,
0.0 otherwise — and its last four entries are agentX, agentY, goalX, goalY. -/
theorem c6_observation (e : Env) (dx dy : ℤ)
    (hx1 : -2 ≤ dx) (hx2 : dx ≤ 2) (hy1 : -2 ≤ dy) (hy2 : dy ≤ 2) :
    (get_observation e).length = 29 ∧
    (get_observation e)[((dy + 2) * 5 + (dx + 2)).toNat]? =
      some (if (max 0 (min (e.W - 1) (e.x + dx)),
                max 0 (min (e.H - 1) (e.y + dy))) ∈ e.redspots then 1
        else if (max 0 (min (e.W - 1) (e.x + dx)),
                max 0 (min (e.H - 1) (e.y + dy))) = e.goal then 2
        else 0) ∧
    (get_observation e).drop 25 =
      [(e.x : ℚ), (e.y : ℚ), (e.goal.1 : ℚ), (e.goal.2 : ℚ)] := by
  refine ⟨rfl, ?_, rfl⟩
  interval_cases dx <;> interval_cases dy <;> rfl

/-- Witness for C6 at a corner environment, window offset (-2, -2): the
out-of-grid cell is clamped to the corner (0, 0). -/
theorem c6_observation_witness :
    (-2 ≤ (-2 : ℤ) ∧ (-2 : ℤ) ≤ 2) ∧
    ((get_observation envCorner).length = 29 ∧
      (get_observation envCorner)[((-2 + 2) * 5 + (-2 + 2) : ℤ).toNat]? =
        some (if (max 0 (min (envCorner.W - 1) (envCorner.x + -2)),
                  max 0 (min (envCorner.H - 1) (envCorner.y + -2))) ∈
                envCorner.redspots then 1
          else if (max 0 (min (envCorner.W - 1) (envCorner.x + -2)),
                  max 0 (min (envCorner.H - 1) (envCorner.y + -2))) =
                envCorner.goal then 2
          else 0) ∧
      (get_observation envCorner).drop 25 =
        [(envCorner.x : ℚ), (envCorner.y : ℚ),
          (envCorner.goal.1 : ℚ), (envCorner.goal.2 : ℚ)]) :=
  ⟨by decide, c6_observation envCorner (-2) (-2) (by decide) (by decide)
    (by decide) (by decide)⟩

lemma sampleCell_inBounds {W H : ℤ} (hW : 0 < W) (hH : 0 < H)
    (stream : ℕ → ℕ) (k : ℕ) :
    0 ≤ (sampleCell W H stream k).1 ∧ (sampleCell W H stream k).1 < W ∧
    0 ≤ (sampleCell W H stream k).2 ∧ (sampleCell W H stream k).2 < H := by
  have h1 : stream k % W.toNat < W.toNat := Nat.mod_lt _ (by omega)
  have h2 : stream (k + 1) % H.toNat < H.toNat := Nat.mod_lt _ (by omega)
  simp only [sampleCell]
  omega

lemma genObstacles_invariant {W H : ℤ} {stream : ℕ → ℕ}
    (hW : 0 < W) (hH : 0 < H) :
    ∀ {fuel k need : ℕ} {acc out : List (ℤ × ℤ)} {k2 : ℕ},
      genObstacles W H stream fuel k need acc = some (out, k2) →
      acc.Nodup → (∀ p ∈ acc, 0 ≤ p.1 ∧ p.1 < W ∧ 0 ≤ p.2 ∧ p.2 < H) →
      out.Nodup ∧ ∀ p ∈ out, 0 ≤ p.1 ∧ p.1 < W ∧ 0 ≤ p.2 ∧ p.2 < H := by
  intro fuel
  induction fuel with
  | zero =>
    intro k need acc out k2 h
    simp [genObstacles] at h
  | succ n ih =>
    intro k need acc out k2 h hnd hin
    simp only [genObstacles] at h
    split_ifs at h with hle hmem
    · simp only [Option.some.injEq, Prod.mk.injEq] at h
      obtain ⟨rfl, rfl⟩ := h
      exact ⟨hnd, hin⟩
    · exact ih h hnd hin
    · refine ih h ?_ ?_
      · rw [List.nodup_append]
        refine ⟨hnd, List.nodup_singleton _, fun a ha hb => ?_⟩
        simp only [List.mem_singleton] at hb
        exact hmem (hb ▸ ha)
      · intro p hp
        rcases List.mem_append.mp hp with hp1 | hp2
        · exact hin p hp1
        · simp only [List.mem_singleton] at hp2
          rw [hp2]
          exact sampleCell_inBounds hW hH stream k

lemma genGoal_spec {W H : ℤ} {stream : ℕ → ℕ} (hW : 0 < W) (hH : 0 < H) :
    ∀ {fuel k : ℕ} {obstacles : List (ℤ × ℤ)} {g : ℤ × ℤ} {k2 : ℕ},
      genGoal W H stream fuel k obstacles = some (g, k2) →
      g ∉ obstacles ∧ 0 ≤ g.1 ∧ g.1 < W ∧ 0 ≤ g.2 ∧ g.2 < H := by
  intro fuel
  induction fuel with
  | zero =>
    intro k obstacles g k2 h
    simp [genGoal] at h
  | succ n ih =>
    intro k obstacles g k2 h
    simp only [genGoal] at h
    by_cases hnm : sampleCell W H stream k ∉ obstacles
    · rw [if_pos hnm] at h
      simp only [Option.some.injEq, Prod.mk.injEq] at h
      obtain ⟨rfl, rfl⟩ := h
      exact ⟨hnm, sampleCell_inBounds hW hH stream k⟩
    · rw [if_neg hnm] at h
      exact ih h

lemma genAgent_spec {W H : ℤ} {stream : ℕ → ℕ} (hW : 0 < W) (hH : 0 < H) :
    ∀ {fuel k : ℕ} {obstacles : List (ℤ × ℤ)} {goal a : ℤ × ℤ} {k2 : ℕ},
      genAgent W H stream fuel k obstacles goal = some (a, k2) →
      a ∉ obstacles ∧ a ≠ goal ∧ 0 ≤ a.1 ∧ a.1 < W ∧ 0 ≤ a.2 ∧ a.2 < H := by
  intro fuel
  induction fuel with
  | zero =>
    intro k obstacles goal a k2 h
    simp [genAgent] at h
  | succ n ih =>
    intro k obstacles goal a k2 h
    simp only [genAgent] at h
    by_cases hc : sampleCell W H stream k ∉ obstacles ∧
        sampleCell W H stream k ≠ goal
    · rw [if_pos hc] at h
      simp only [Option.some.injEq, Prod.mk.injEq] at h
      obtain ⟨rfl, rfl⟩ := h
      exact ⟨hc.1, hc.2, sampleCell_inBounds hW hH stream k⟩
    · rw [if_neg hc] at h
      exact ih h

/-- C7: every layout that grid-mode world generation produces (whatever the
random stream and fuel) has pairwise distinct obstacle cells, a goal that is
not an obstacle, an agent start that is neither an obstacle nor the goal,
and all obstacle, goal and agent-start coordinates within
[0,width) x [0,height). -/
theorem c7_layout_invariants (W H : ℤ) (stream : ℕ → ℕ) (fuel : ℕ) (L : Layout)
    (hW : 0 < W) (hH : 0 < H)
    (hgen : initialize_grid_environment W H stream fuel = some L) :
    L.redspots.Nodup ∧ L.goal ∉ L.redspots ∧ L.agentStart ∉ L.redspots ∧
    L.agentStart ≠ L.goal ∧ layoutInBounds W H L = true := by
  simp only [initialize_grid_environment, Option.bind_eq_some,
    Option.map_eq_some'] at hgen
  obtain ⟨⟨obs, k⟩, hobs, ⟨g, k2⟩, hg, ⟨a0, k3⟩, hag, rfl⟩ := hgen
  have H1 := genObstacles_invariant hW hH hobs List.nodup_nil (by simp)
  have H2 := genGoal_spec hW hH hg
  have H3 := genAgent_spec hW hH hag
  refine ⟨H1.1, H2.1, H3.1, H3.2.1, ?_⟩
  simp only [layoutInBounds, cellInBounds, Bool.and_eq_true,
    List.all_eq_true, decide_eq_true_eq]
  refine ⟨⟨fun p hp => ?_, ?_⟩, ?_⟩
  · have := H1.2 p hp
    tauto
  · have := H2.2
    tauto
  · have := H3.2.2
    tauto

/-- Witness for C7: the generator run on the concrete stream k/2 with fuel
100 returns demoLayout, which satisfies every invariant. -/
theorem c7_layout_invariants_witness :
    ((0 : ℤ) < 40 ∧
      initialize_grid_environment 40 40 demoStream 100 = some demoLayout) ∧
    (demoLayout.redspots.Nodup ∧ demoLayout.goal ∉ demoLayout.redspots ∧
      demoLayout.agentStart ∉ demoLayout.redspots ∧
      demoLayout.agentStart ≠ demoLayout.goal ∧
      layoutInBounds 40 40 demoLayout = true) :=
  ⟨⟨by decide, by decide⟩,
    c7_layout_invariants 40 40 demoStream 100 demoLayout (by decide) (by decide)
      (by decide)⟩

lemma bezier_recursive_seg (z0 t : ℝ) :
    bezier_recursive z0 segPts t = (t, 0, z0) := by
  unfold bezier_recursive segPts
  simp only [List.length_cons, List.length_nil]
  norm_num [Finset.sum_range_succ]

lemma calculate_total_length_seg (z0 : ℝ) :
    calculate_total_length z0 segPts 1000 = 1 := by
  unfold calculate_total_length
  have h : ∀ i ∈ Finset.range 1000,
      dist3 (bezier_recursive z0 segPts (((i : ℝ) + 1) / (1000 : ℕ)))
          (bezier_recursive z0 segPts ((i : ℝ) / (1000 : ℕ))) =
        1 / 1000 := by
    intro i _
    rw [bezier_recursive_seg, bezier_recursive_seg]
    unfold dist3
    have e1 : (((i : ℝ) + 1) / (1000 : ℕ) - (i : ℝ) / (1000 : ℕ)) ^ 2 +
        ((0 : ℝ) - 0) ^ 2 + (z0 - z0) ^ 2 = (1 / 1000) ^ 2 := by
      push_cast
      ring
    rw [e1, Real.sqrt_sq (by norm_num)]
  rw [Finset.sum_congr rfl h]
  simp only [Finset.sum_const, Finset.card_range, nsmul_eq_mul]
  norm_num

/-- C8: for the two control points (0,0,0) and (1,0,0) the Bezier evaluation
at t = 0 and t = 1 returns the two endpoints exactly (their x and y
components; the z component — for every control list and parameter — is the
fixed initial height rather than an interpolated value), and the
1000-subdivision arc length of the segment is exactly 1. -/
theorem c8_bezier_unit_segment (z0 : ℝ) :
    bezier_recursive z0 segPts 0 = (0, 0, z0) ∧
    bezier_recursive z0 segPts 1 = (1, 0, z0) ∧
    (∀ pts : List (ℝ × ℝ × ℝ), ∀ t : ℝ,
      (bezier_recursive z0 pts t).2.2 = z0) ∧
    calculate_total_length z0 segPts 1000 = 1 := by
  refine ⟨bezier_recursive_seg z0 0, bezier_recursive_seg z0 1, ?_,
    calculate_total_length_seg z0⟩
  intro pts t
  simp only [bezier_recursive]
  split <;> rfl

lemma pyRound_intCast (z : ℤ) : pyRound (z : ℚ) = z := by
  unfold pyRound
  rw [Int.floor_intCast]
  norm_num

/-- C10: for every grid cell (x, y) with 0 <= x, y <= 40, move_to_grid
applied to the first two components of grid_to_coordinates (x, y) returns
exactly some (x, y) — never none: the grid-to-continuous map has an exact
left inverse on all valid cells. -/
theorem c10_roundtrip (xg yg : ℤ) (hx0 : 0 ≤ xg) (hx1 : xg ≤ 40)
    (hy0 : 0 ≤ yg) (hy1 : yg ≤ 40) :
    (grid_to_coordinates xg yg).bind (fun c => move_to_grid c.1 c.2.1) =
      some (xg, yg) := by
  have hb : ¬(40 < xg ∨ xg < 0 ∨ 40 < yg ∨ yg < 0) := by omega
  have hxq : (0 : ℚ) ≤ (xg : ℚ) := by exact_mod_cast hx0
  have hxq4 : (xg : ℚ) ≤ 40 := by exact_mod_cast hx1
  have hyq : (0 : ℚ) ≤ (yg : ℚ) := by exact_mod_cast hy0
  have hyq4 : (yg : ℚ) ≤ 40 := by exact_mod_cast hy1
  simp only [grid_to_coordinates, if_neg hb, Option.some_bind]
  simp only [move_to_grid]
  have ex : (xg : ℚ) * (1 / 8) - 5 / 2 + 5 / 2 = (xg : ℚ) / 8 := by ring
  have ey : (yg : ℚ) * (1 / 8) - 5 / 2 + 5 / 2 = (yg : ℚ) / 8 := by ring
  rw [ex, ey]
  have hcond : ¬(5 < (xg : ℚ) / 8 ∨ (xg : ℚ) / 8 < 0 ∨
      5 < (yg : ℚ) / 8 ∨ (yg : ℚ) / 8 < 0) := by
    push_neg
    refine ⟨by linarith, by linarith, by linarith, by linarith⟩
  rw [if_neg hcond]
  have dx : (xg : ℚ) / 8 / (1 / 8) = (xg : ℚ) := by ring
  have dy : (yg : ℚ) / 8 / (1 / 8) = (yg : ℚ) := by ring
  rw [dx, dy, pyRound_intCast, pyRound_intCast, if_neg hb]

/-- Witness for C10 at the boundary cell (40, 0). -/
theorem c10_roundtrip_witness :
    ((0 : ℤ) ≤ 40 ∧ (40 : ℤ) ≤ 40 ∧ (0 : ℤ) ≤ 0 ∧ (0 : ℤ) ≤ 40) ∧
    (grid_to_coordinates 40 0).bind (fun c => move_to_grid c.1 c.2.1) =
      some (40, 0) :=
  ⟨by decide, c10_roundtrip 40 0 (by decide) (by decide) (by decide) (by decide)⟩

end GridWorld
